import Mathlib

/-!
Verification development for the freshdesk-activity-report repository.

The embedding covers the two core subsystems:
* the aggregation engine of utils/logicUtils.ts (constrainTimeEstimate,
  calculateAllAgentActivity and their helpers), embedded as pure functions
  over lists;
* the acquisition layer: the RateLimiter of services/apiUtils.ts as a
  labelled transition system over explicit timestamps (milliseconds as
  naturals), fetchWithRetry as a function of the per-attempt results, the
  search-mode paginator and the error classification of the service layer.

Modelling conventions, shared by all sections:
* JavaScript timestamps are integers (milliseconds since the epoch); Date
  comparisons in the source become integer comparisons.
* formatLocalDate(toSATime(d)) buckets an event into a calendar day of the
  fixed GMT+2 display offset and renders it as a yyyy-mm-dd label.  Since the
  label only serves as a bucketing key and its rendering is injective on day
  numbers, the embedding uses the day number ((ms + 2h) fdiv 86400000)
  directly as the key; for a fixed-offset runtime timezone two events get
  equal labels exactly when they get equal day numbers.
* String.prototype.toLowerCase / toUpperCase are modelled by the per-Char
  ASCII case maps, and String.prototype.trim by dropping whitespace on both
  ends; all texts the heuristics inspect are ASCII.
* JavaScript Map objects become association lists with unique keys
  (insertion order preserved), JavaScript Set objects become duplicate-free
  lists in insertion order.
-/

namespace FDReport

/-- ASCII model of String.prototype.toLowerCase. -/
def lowerStr (s : String) : String :=
  String.mk (s.data.map Char.toLower)

/-- ASCII model of String.prototype.toUpperCase. -/
def upperStr (s : String) : String :=
  String.mk (s.data.map Char.toUpper)

/-- Model of String.prototype.trim (whitespace stripped from both ends). -/
def trimStr (s : String) : String :=
  String.mk (((s.data.dropWhile Char.isWhitespace).reverse.dropWhile Char.isWhitespace).reverse)

/-- Does the text start with the pattern (both as character lists)? -/
def startsWithL : List Char → List Char → Bool
  | [], _ => true
  | _ :: _, [] => false
  | p :: ps, t :: ts => p == t && startsWithL ps ts

/-- Does the text contain the pattern as a contiguous substring?  Models
String.prototype.includes on the character-list level. -/
def containsL (pat : List Char) : List Char → Bool
  | [] => pat.isEmpty
  | c :: rest => startsWithL pat (c :: rest) || containsL pat rest

/-- Model of s.includes(pat) for JavaScript strings. -/
def containsStr (s pat : String) : Bool :=
  containsL pat.data s.data

/-- Model of s.substring(0, n). -/
def takeStr (n : Nat) (s : String) : String :=
  String.mk (s.data.take n)

/-- Association-list lookup with integer keys: models Map.prototype.get
(first matching key wins; Map keys are unique, so this is exact). -/
def lookupMap {V : Type _} (m : List (Int × V)) (k : Int) : Option V :=
  (m.find? (fun e => e.1 == k)).map (fun e => e.2)

/-- In-place update of an association list: if the key is present the value
is rewritten at its position, otherwise the pair (k, f z) is appended.
Models the source pattern: if (!map.has(k)) map.set(k, z); then mutate the
entry by f.  (JavaScript Map preserves insertion order.) -/
def updAssoc {V : Type _} (k : Int) (z : V) (f : V → V) : List (Int × V) → List (Int × V)
  | [] => [(k, f z)]
  | p :: t => if p.1 == k then (p.1, f p.2) :: t else p :: updAssoc k z f t

/-- Model of Set.prototype.add on an insertion-ordered duplicate-free list. -/
def addToSet (x : Int) (l : List Int) : List Int :=
  if l.contains x then l else l ++ [x]

/-! ## Embedding of utils/logicUtils.ts -/

/-- Source: toSATime — shifts a timestamp to the South Africa display offset
(GMT+2) by adding two hours of milliseconds. -/
def toSATime (ms : Int) : Int :=
  ms + 2 * 60 * 60 * 1000

/-- Day bucket of a timestamp after the GMT+2 shift; stands for the
yyyy-mm-dd label formatLocalDate(toSATime ms) computes (see header note). -/
def dayIndex (ms : Int) : Int :=
  (toSATime ms).fdiv 86400000

/-- Source: formatMinutesToHours.  The minute counts reaching it are natural
numbers, so the negative clamp and Math.round are identities. -/
def formatMinutesToHours (minutes : Nat) : String :=
  toString (minutes / 60) ++ "h " ++ toString (minutes % 60) ++ "m"

/-- Source: formatTimeRange. -/
def formatTimeRange (mn mx : Nat) : String :=
  formatMinutesToHours mn ++ " - " ++ formatMinutesToHours mx

/-- Source: constrainTimeEstimate.  Over the naturals, newMax > min * 1.5 is
exactly 3 * min < 2 * newMax, and Math.ceil(min * 1.5) is (3 * min + 1) / 2
(truncated division). -/
def constrainTimeEstimate (mn mx : Nat) : Nat × Nat :=
  let newMax := if 3 * mn < 2 * mx then (3 * mn + 1) / 2 else mx
  let newMax2 := if newMax < mn then mn else newMax
  (mn, newMax2)

/-- Conversation record (types.ts), with the fields the aggregation engine
reads.  body_text is optional because the source guards it with || on every
use. -/
structure Conversation where
  user_id : Int
  body_text : Option String
  created_at : Int
  «private» : Bool
deriving DecidableEq, Repr

/-- The nullable stats block of a ticket (types.ts). -/
structure TicketStats where
  reopened_at : Option Int
  resolved_at : Option Int
  closed_at : Option Int
deriving DecidableEq, Repr

/-- TicketWithConversations (types.ts), restricted to the fields the
aggregation engine reads; the presentational fields (subject, description,
priority, requester, ...) are never consulted by calculateAllAgentActivity. -/
structure Ticket where
  id : Int
  responder_id : Int
  group_id : Int
  status : Nat
  updated_at : Int
  stats : Option TicketStats
  conversations : List Conversation
deriving DecidableEq, Repr

/-- Source expression ticket.stats?.closed_at || ticket.stats?.resolved_at
|| ticket.updated_at (first present timestamp wins). -/
def ticketClosedAt (t : Ticket) : Int :=
  match t.stats with
  | none => t.updated_at
  | some st =>
    match st.closed_at with
    | some v => v
    | none =>
      match st.resolved_at with
      | some v => v
      | none => t.updated_at

/-- Agent lookup table: id to display name, from the agentMap parameter. -/
abbrev AgentMap := List (Int × String)

/-- The system-automation heuristic of pass 1: the lowercased body text
contains the substring "system". -/
def isSystemConv (c : Conversation) : Bool :=
  containsStr (lowerStr (c.body_text.getD "")) "system"

/-- Strict boundary check of pass 1: activityDate >= startDate and
activityDate <= endDate. -/
def convInWindow (s e : Int) (c : Conversation) : Bool :=
  decide (s ≤ c.created_at) && decide (c.created_at ≤ e)

/-- A conversation that pass 1 counts for its author: in the window, by a
known agent, and not matching the system heuristic.  (agentActivity.has and
agentMap.has coincide because the activity map is initialised from agentMap
and never extended.) -/
def convQualifies (am : AgentMap) (s e : Int) (c : Conversation) : Bool :=
  convInWindow s e c && (lookupMap am c.user_id).isSome && !(isSystemConv c)

/-- The trimmed, lowercased body text pass 1 classifies on. -/
def bodyTextOf (c : Conversation) : String :=
  lowerStr (trimStr (c.body_text.getD ""))

/-- Per-day accumulator of an agent (the dailyStats map values). -/
structure DayStat where
  totalResponses : Nat
  totalActions : Nat
  totalClosed : Nat
  totalMin : Nat
  totalMax : Nat
deriving DecidableEq, Repr

/-- Fresh per-day accumulator. -/
def dayZero : DayStat := ⟨0, 0, 0, 0, 0⟩

/-- Per-group accumulator of an agent (the groupStats map values). -/
structure GroupAcc where
  worked : Nat
  closed : Nat
deriving DecidableEq, Repr

/-- Fresh per-group accumulator. -/
def grpZero : GroupAcc := ⟨0, 0⟩

/-- The mutable AgentData record of calculateAllAgentActivity, for one
agent.  The agent activity Map of the source keys such records by agent id;
each update touches exactly one key, so the embedding computes the record of
each agent independently. -/
structure AgentData where
  ticketIds : List Int
  totalMin : Nat
  totalMax : Nat
  totalResponses : Nat
  totalActions : Nat
  totalClosed : Nat
  dailyStats : List (Int × DayStat)
  groupStats : List (Int × GroupAcc)
deriving DecidableEq, Repr

/-- The record every agent starts from. -/
def emptyAgentData : AgentData :=
  ⟨[], 0, 0, 0, 0, 0, [], []⟩

/-- Pass 1, one conversation, for the agent a: the body of the inner forEach
of the activity pass, restricted to the updates that hit the record of a.
The minute weights minAdd/maxAdd are added only to the agent-level running
totals (lines 196-197 of the source); the day bucket receives only its
response/action counter increment — daily totalMin/totalMax accumulate
nothing in pass 1 and are fed solely by the closure pass. -/
def applyConv (am : AgentMap) (s e : Int) (a : Int) (tkId : Int)
    (d : AgentData) (c : Conversation) : AgentData :=
  if convQualifies am s e c && c.user_id == a then
    let day := dayIndex c.created_at
    let bt := bodyTextOf c
    let mnAdd : Nat :=
      if c.«private» then (if containsStr bt "marked as spam" then 1 else 2)
      else (if bt.length < 50 then 3 else 5)
    let mxAdd : Nat :=
      if c.«private» then (if containsStr bt "marked as spam" then 2 else 3)
      else (if bt.length < 50 then 4 else 7)
    let updDay := fun (st : DayStat) =>
      if c.«private» then { st with totalActions := st.totalActions + 1 }
      else { st with totalResponses := st.totalResponses + 1 }
    { d with
      ticketIds := addToSet tkId d.ticketIds
      totalResponses := if c.«private» then d.totalResponses else d.totalResponses + 1
      totalActions := if c.«private» then d.totalActions + 1 else d.totalActions
      totalMin := d.totalMin + mnAdd
      totalMax := d.totalMax + mxAdd
      dailyStats := updAssoc day dayZero updDay d.dailyStats }
  else d

/-- Pass 1, one ticket, for the agent a: folds the conversations, then
credits the worked counter of the group of the ticket when a ended up in the
agentsWorked set of this ticket. -/
def pass1Ticket (am : AgentMap) (s e : Int) (a : Int)
    (d : AgentData) (tk : Ticket) : AgentData :=
  let d1 := tk.conversations.foldl (applyConv am s e a tk.id) d
  if tk.conversations.any (fun c => convQualifies am s e c && c.user_id == a) then
    let gs := updAssoc tk.group_id grpZero (fun g => { g with worked := g.worked + 1 }) d1.groupStats
    { d1 with groupStats := gs }
  else d1

/-- Pass 1 (Activity and Worked) of calculateAllAgentActivity, for agent a. -/
def pass1 (am : AgentMap) (s e : Int) (a : Int) (tickets : List Ticket) : AgentData :=
  tickets.foldl (pass1Ticket am s e a) emptyAgentData

/-- Is the ticket Resolved (4) or Closed (5) with its closure timestamp in
the window?  The status and window guards of pass 2. -/
def ticketClosedInWindow (s e : Int) (tk : Ticket) : Bool :=
  (tk.status == 4 || tk.status == 5)
    && decide (s ≤ ticketClosedAt tk) && decide (ticketClosedAt tk ≤ e)

/-- Pass 2, one ticket, for the agent a.  ids is the ticketIds set pass 1
produced (pass 2 never extends it).  The closure is credited only when a is
the responder, a known agent, and the ticket id is already in ids. -/
def pass2Ticket (am : AgentMap) (s e : Int) (a : Int) (ids : List Int)
    (d : AgentData) (tk : Ticket) : AgentData :=
  if ticketClosedInWindow s e tk && tk.responder_id == a
      && (lookupMap am a).isSome && ids.contains tk.id then
    let day := dayIndex (ticketClosedAt tk)
    let updDay := fun (st : DayStat) =>
      { st with totalClosed := st.totalClosed + 1,
                totalMin := st.totalMin + 1, totalMax := st.totalMax + 2 }
    let ds := updAssoc day dayZero updDay d.dailyStats
    let gs := updAssoc tk.group_id grpZero (fun g => { g with closed := g.closed + 1 }) d.groupStats
    { d with
      totalClosed := d.totalClosed + 1
      totalMin := d.totalMin + 1
      totalMax := d.totalMax + 2
      dailyStats := ds
      groupStats := gs }
  else d

/-- Both passes of calculateAllAgentActivity for one agent: pass 1 over all
tickets, then pass 2 over all tickets with the ticketIds set pass 1 built. -/
def agentDataOf (am : AgentMap) (s e : Int) (a : Int) (tickets : List Ticket) : AgentData :=
  let d1 := pass1 am s e a tickets
  tickets.foldl (pass2Ticket am s e a d1.ticketIds) d1

/-- DailyAgentStats (types.ts); date is the day bucket (see header note). -/
structure DailyAgentStats where
  date : Int
  totalResponses : Nat
  totalActions : Nat
  totalClosed : Nat
  totalAgentActivity : Nat
  estimatedTimeRange : String
  totalMin : Nat
  totalMax : Nat
deriving DecidableEq, Repr

/-- AgentGroupStat (types.ts); percent is kept as the exact rational the
source renders with toFixed(1). -/
structure AgentGroupStat where
  groupName : String
  total : Nat
  worked : Nat
  closed : Nat
  percent : ℚ
deriving DecidableEq, Repr

/-- AgentActivitySummary (types.ts); activityRatio is kept as the exact
rational the source renders with toFixed(1). -/
structure AgentActivitySummary where
  agentId : Int
  agentName : String
  ticketCount : Nat
  estimatedTimeRange : String
  totalResponses : Nat
  totalActions : Nat
  totalClosed : Nat
  totalAgentActivity : Nat
  activityRatio : ℚ
  dailyBreakdown : List DailyAgentStats
  groupStats : List AgentGroupStat
deriving DecidableEq, Repr

instance : Inhabited AgentActivitySummary :=
  ⟨⟨0, "", 0, "", 0, 0, 0, 0, 0, [], []⟩⟩

/-- Insertion step of the stable sort: x is placed before the first element
it compares le to, hence after every earlier element it ties with. -/
def insertBy {α : Type _} (le : α → α → Bool) (x : α) : List α → List α
  | [] => [x]
  | y :: ys => if le x y then x :: y :: ys else y :: insertBy le x ys

/-- Stable insertion sort: the model of Array.prototype.sort, which ES2019
requires to be stable.  Folding from the right inserts every element into
the sorted tail, before the first element it compares le to. -/
def sortBy {α : Type _} (le : α → α → Bool) (l : List α) : List α :=
  l.foldr (insertBy le) []

theorem insertBy_perm {α : Type _} (le : α → α → Bool) (x : α) (l : List α) :
    (insertBy le x l).Perm (x :: l) := by
  induction l with
  | nil => simp [insertBy]
  | cons y ys ih =>
    simp only [insertBy]
    split
    · exact List.Perm.refl _
    · exact (ih.cons y).trans (List.Perm.swap x y ys)

theorem sortBy_perm {α : Type _} (le : α → α → Bool) (l : List α) :
    (sortBy le l).Perm l := by
  induction l with
  | nil => exact List.Perm.refl _
  | cons y ys ih => exact (insertBy_perm le y (sortBy le ys)).trans (ih.cons y)

/-- groupMap.get(gid) || Other (JavaScript || : an absent key and an empty
name both fall back). -/
def groupNameOf (gm : List (Int × String)) (gid : Int) : String :=
  match lookupMap gm gid with
  | some n => if n == "" then "Other" else n
  | none => "Other"

/-- The per-agent map step of the return expression of
calculateAllAgentActivity: builds one AgentActivitySummary from the
AgentData of the agent and the cross-agent total.  The two .sort calls of
the source are stable (ES2019), as is List.mergeSort. -/
def buildSummary (gm : List (Int × String)) (a : Int) (name : String)
    (d : AgentData) (totalAll : Nat) : AgentActivitySummary :=
  let totalAgentActivity := d.totalResponses + d.totalActions
  let ratio : ℚ := if 0 < totalAll then ((d.ticketIds.length : ℚ) / totalAll) * 100 else 0
  let daily := (sortBy (fun x y => decide (x.1 ≤ y.1)) d.dailyStats).map (fun p =>
    let c := constrainTimeEstimate p.2.totalMin p.2.totalMax
    { date := p.1
      totalResponses := p.2.totalResponses
      totalActions := p.2.totalActions
      totalClosed := p.2.totalClosed
      totalAgentActivity := p.2.totalResponses + p.2.totalActions
      estimatedTimeRange := formatTimeRange c.1 c.2
      totalMin := c.1
      totalMax := c.2 : DailyAgentStats })
  let cTotal := constrainTimeEstimate d.totalMin d.totalMax
  let totalForAgent := d.ticketIds.length
  let gstats := sortBy (fun x y => decide (y.worked ≤ x.worked)) (d.groupStats.map (fun p =>
      { groupName := groupNameOf gm p.1
        total := p.2.worked + p.2.closed
        worked := p.2.worked
        closed := p.2.closed
        percent := if 0 < totalForAgent then ((p.2.worked : ℚ) / totalForAgent) * 100 else 0
        : AgentGroupStat }))
  { agentId := a
    agentName := upperStr name
    ticketCount := d.ticketIds.length
    estimatedTimeRange := formatTimeRange cTotal.1 cTotal.2
    totalResponses := d.totalResponses
    totalActions := d.totalActions
    totalClosed := d.totalClosed
    totalAgentActivity := totalAgentActivity
    activityRatio := ratio
    dailyBreakdown := daily
    groupStats := gstats }

/-- The cross-agent denominator of the activity ratio: the sum over all
known agents of the size of their touched-ticket set. -/
def summaryTotal (am : AgentMap) (s e : Int) (tickets : List Ticket) : Nat :=
  (am.map (fun en => (agentDataOf am s e en.1 tickets).ticketIds.length)).sum

/-- The output filter: summary.ticketCount > 0 || summary.totalClosed > 0. -/
def keepSummary (s2 : AgentActivitySummary) : Bool :=
  decide (0 < s2.ticketCount) || decide (0 < s2.totalClosed)

/-- Source: calculateAllAgentActivity(tickets, agentMap, startDate, endDate,
groupMap).  One summary per agentMap entry, agents with neither activity nor
closures filtered out, sorted by distinct-ticket count descending (stable). -/
def calculateAllAgentActivity (tickets : List Ticket) (am : AgentMap)
    (s e : Int) (gm : List (Int × String)) : List AgentActivitySummary :=
  let totalAll := summaryTotal am s e tickets
  sortBy (fun x y => decide (y.ticketCount ≤ x.ticketCount))
    ((am.map (fun en =>
        buildSummary gm en.1 en.2 (agentDataOf am s e en.1 tickets) totalAll)).filter
      keepSummary)

/-! ## Helper lemmas about the summary builder -/

theorem buildSummary_estimatedTimeRange (gm : List (Int × String)) (a : Int)
    (name : String) (d : AgentData) (totalAll : Nat) :
    (buildSummary gm a name d totalAll).estimatedTimeRange
      = formatTimeRange (constrainTimeEstimate d.totalMin d.totalMax).1
          (constrainTimeEstimate d.totalMin d.totalMax).2 := rfl

theorem buildSummary_dailyBreakdown (gm : List (Int × String)) (a : Int)
    (name : String) (d : AgentData) (totalAll : Nat) :
    (buildSummary gm a name d totalAll).dailyBreakdown
      = (sortBy (fun x y => decide (x.1 ≤ y.1)) d.dailyStats).map (fun p =>
          let c := constrainTimeEstimate p.2.totalMin p.2.totalMax
          { date := p.1
            totalResponses := p.2.totalResponses
            totalActions := p.2.totalActions
            totalClosed := p.2.totalClosed
            totalAgentActivity := p.2.totalResponses + p.2.totalActions
            estimatedTimeRange := formatTimeRange c.1 c.2
            totalMin := c.1
            totalMax := c.2 : DailyAgentStats }) := rfl

/-- Unpacks membership in the output of calculateAllAgentActivity: every
emitted summary is the built record of some agentMap entry. -/
theorem mem_calculate {tickets : List Ticket} {am : AgentMap} {s e : Int}
    {gm : List (Int × String)} {s2 : AgentActivitySummary}
    (h : s2 ∈ calculateAllAgentActivity tickets am s e gm) :
    ∃ en ∈ am, s2 = buildSummary gm en.1 en.2 (agentDataOf am s e en.1 tickets)
        (summaryTotal am s e tickets) := by
  unfold calculateAllAgentActivity at h
  have h1 := (sortBy_perm _ _).mem_iff.mp h
  have h2 := (List.mem_filter.mp h1).1
  obtain ⟨en, hen, hmap⟩ := List.mem_map.mp h2
  exact ⟨en, hen, hmap.symm⟩

/-! ## Claim C4: the constrained estimate bound -/

/-- C4.  constrainTimeEstimate preserves its first component and returns a
second component max2 with min ≤ max2 ≤ ceil(1.5 * min) (which over the
naturals is (3 * min + 1) / 2); consequently the total estimate rendered in
every emitted summary and every daily-breakdown estimate satisfy the same
bound, including min = 0 where max2 = 0. -/
theorem C4_estimate_bounds :
    (∀ mn mx : Nat,
      (constrainTimeEstimate mn mx).1 = mn ∧
      mn ≤ (constrainTimeEstimate mn mx).2 ∧
      (constrainTimeEstimate mn mx).2 ≤ (3 * mn + 1) / 2) ∧
    (∀ tickets am s e gm, ∀ s2 ∈ calculateAllAgentActivity tickets am s e gm,
      (∃ m2 M2, m2 ≤ M2 ∧ M2 ≤ (3 * m2 + 1) / 2 ∧
        s2.estimatedTimeRange = formatTimeRange m2 M2) ∧
      ∀ d2 ∈ s2.dailyBreakdown,
        d2.totalMin ≤ d2.totalMax ∧ d2.totalMax ≤ (3 * d2.totalMin + 1) / 2) := by
  have base : ∀ mn mx : Nat,
      (constrainTimeEstimate mn mx).1 = mn ∧
      mn ≤ (constrainTimeEstimate mn mx).2 ∧
      (constrainTimeEstimate mn mx).2 ≤ (3 * mn + 1) / 2 := by
    intro mn mx
    simp only [constrainTimeEstimate]
    split_ifs <;> simp <;> omega
  refine ⟨base, ?_⟩
  intro tickets am s e gm s2 hmem
  obtain ⟨en, _, rfl⟩ := mem_calculate hmem
  set d := agentDataOf am s e en.1 tickets with hd
  constructor
  · refine ⟨(constrainTimeEstimate d.totalMin d.totalMax).1,
      (constrainTimeEstimate d.totalMin d.totalMax).2, ?_, ?_, ?_⟩
    · have := base d.totalMin d.totalMax
      omega
    · have := base d.totalMin d.totalMax
      rw [(base d.totalMin d.totalMax).1]
      exact this.2.2
    · exact buildSummary_estimatedTimeRange ..
  · intro d2 hd2
    rw [buildSummary_dailyBreakdown] at hd2
    obtain ⟨p, _, rfl⟩ := List.mem_map.mp hd2
    have := base p.2.totalMin p.2.totalMax
    simp only
    constructor
    · have h1 := (base p.2.totalMin p.2.totalMax).1
      omega
    · have h1 := (base p.2.totalMin p.2.totalMax).1
      omega

/-- Witness for C4 at concrete inputs: the pointwise bound at (2, 9), and the
output bound at the one-agent, one-ticket instance used across this file. -/
def c4ticket : Ticket :=
  ⟨1, 1, 3, 5, 500, some ⟨none, none, some 500⟩, [⟨1, some "thanks for waiting", 400, false⟩]⟩

/-- The single summary the c4ticket instance emits. -/
def c4sum : AgentActivitySummary :=
  buildSummary [] 1 "a" (agentDataOf [(1, "a")] 0 1000 1 [c4ticket])
    (summaryTotal [(1, "a")] 0 1000 [c4ticket])

theorem C4_estimate_bounds_witness :
    (2 ≤ (constrainTimeEstimate 2 9).2 ∧ (constrainTimeEstimate 2 9).2 ≤ (3 * 2 + 1) / 2) ∧
    (∃ m2 M2, m2 ≤ M2 ∧ M2 ≤ (3 * m2 + 1) / 2 ∧
      c4sum.estimatedTimeRange = formatTimeRange m2 M2) := by
  constructor
  · exact ⟨(C4_estimate_bounds.1 2 9).2.1, (C4_estimate_bounds.1 2 9).2.2⟩
  · have hmem : c4sum ∈ calculateAllAgentActivity [c4ticket] [(1, "a")] 0 1000 [] := by
      rw [show calculateAllAgentActivity [c4ticket] [(1, "a")] 0 1000 [] = [c4sum] from rfl]
      exact List.mem_cons_self _ _
    exact (C4_estimate_bounds.2 [c4ticket] [(1, "a")] 0 1000 [] c4sum hmem).1

/-! ## Claim C10: constrainTimeEstimate is idempotent -/

/-- C10.  constrainTimeEstimate preserves its first argument, and applying
it again to its own output returns the output unchanged. -/
theorem C10_constrain_idempotent (mn mx : Nat) :
    (constrainTimeEstimate mn mx).1 = mn ∧
    constrainTimeEstimate (constrainTimeEstimate mn mx).1 (constrainTimeEstimate mn mx).2
      = constrainTimeEstimate mn mx := by
  refine ⟨rfl, ?_⟩
  simp only [constrainTimeEstimate]
  split_ifs <;> simp_all <;> omega

/-! ## Claim C5: the two-conversation closed-ticket scenario -/

/-- The 80-character public reply of the scenario (no system marker). -/
def c5body : String := String.mk (List.replicate 80 'a')

/-- Public reply of Agent A (id 1), 80 characters, inside the window. -/
def c5pub : Conversation := ⟨1, some c5body, 100000, false⟩

/-- Private note of Agent A with body "marked as spam", inside the window. -/
def c5priv : Conversation := ⟨1, some "marked as spam", 200000, true⟩

/-- Ticket 100: status Closed (5), responder Agent A, closed_at inside the
window, carrying exactly the two conversations of the scenario. -/
def c5ticket : Ticket := ⟨100, 1, 9, 5, 300000, some ⟨none, none, some 300000⟩, [c5pub, c5priv]⟩

/-- The agent lookup table of the scenario: Agent A only. -/
def c5agentMap : AgentMap := [(1, "agent a")]

/-- The engine output on the scenario input with window [0, 1000000]. -/
def c5out : List AgentActivitySummary :=
  calculateAllAgentActivity [c5ticket] c5agentMap 0 1000000 []

/-- C5 counterexample.  On the exact scenario input the engine does emit
totalResponses = totalActions = totalClosed = 1, but the minute estimate of
the record is min = 7 and max = 11 (public long reply 5 to 7, spam note
1 to 2, closure 1 to 2), not min = 4 and max = 7 as claimed: the rendered
range differs from formatTimeRange 4 7, and no pair of the record reads
(4, 7) — the single daily entry carries (1, 2), the minutes the closure
pass alone contributes to the day bucket. -/
theorem C5_counterexample :
    (c5ticket.conversations.all
      (fun c => convQualifies c5agentMap 0 1000000 c && c.user_id == 1)) = true ∧
    ticketClosedInWindow 0 1000000 c5ticket = true ∧
    c5out.map (fun s2 => (s2.totalResponses, s2.totalActions, s2.totalClosed)) = [(1, 1, 1)] ∧
    c5out.map (fun s2 => s2.estimatedTimeRange) = ["0h 7m - 0h 11m"] ∧
    c5out.map (fun s2 => s2.dailyBreakdown.map (fun d2 => (d2.totalMin, d2.totalMax)))
      = [[(1, 2)]] ∧
    formatTimeRange 4 7 ≠ "0h 7m - 0h 11m" ∧
    formatTimeRange 4 7 ≠ "0h 1m - 0h 2m" := by
  refine ⟨by decide, by decide, by decide, by decide, by decide, by decide, by decide⟩

/-- C5 amended.  Same scenario, with the values the code actually computes:
responses = 1, actions = 1, closed = 1, and a record estimate of
min = 5 + 1 + 1 = 7, max = 7 + 2 + 2 = 11 (the 80-character public reply
costs 5 to 7 minutes, the spam note 1 to 2, the closure 1 to 2;
11 = ceil(1.5 * 7), so the constraint leaves the pair unchanged).  The
single daily entry counts 1 response, 1 action, 1 closure with minute pair
(1, 2): pass 1 adds its weights only to the agent totals, so a day bucket
accumulates minutes from the closure pass alone. -/
theorem C5_agentA_scenario :
    c5out.map (fun s2 => (s2.agentId, s2.totalResponses, s2.totalActions, s2.totalClosed))
      = [(1, 1, 1, 1)] ∧
    c5out.map (fun s2 => s2.estimatedTimeRange) = [formatTimeRange 7 11] ∧
    c5out.map (fun s2 => s2.dailyBreakdown.map
      (fun d2 => (d2.totalResponses, d2.totalActions, d2.totalClosed, d2.totalMin, d2.totalMax)))
      = [[(1, 1, 1, 1, 2)]] := by
  refine ⟨by decide, by decide, by decide⟩

/-! ## Embedding of the RateLimiter (services/apiUtils.ts)

The limiter is a labelled transition system.  Times are milliseconds
(naturals); every event carries the Date.now() reading of the processQueue
run (or setGlobalBackoff call) it models, and a trace forces those readings
to be non-decreasing.  The events:

* schedule: a task is pushed on the queue;
* start: a processQueue run passes the three admission checks and starts the
  head task (lines 34-57): it prunes the timestamp log, requires the global
  deadline to have passed, concurrency below maxConcurrent, fewer than
  maxPerWindow pruned timestamps, and a queued task, then increments the
  in-flight counter and appends its own timestamp;
* finish: a task completes and releases its concurrency slot;
* prune: a processQueue run that prunes the log (line 44) but then admits
  nothing (it reached line 44, so the deadline and concurrency checks held);
* backoff: setGlobalBackoff(s), which assigns (not maximises)
  globalRetryAfter := now + s * 1000 + 1000. -/

/-- Source constants DEFAULT_MAX_CONCURRENT / DEFAULT_WINDOW_MS /
DEFAULT_MAX_PER_WINDOW. -/
structure RLConfig where
  maxConcurrent : Nat
  windowMs : Nat
  maxPerWindow : Nat
deriving DecidableEq, Repr

/-- The default configuration (5 concurrent, 10 per 1000 ms). -/
def rlDefaultConfig : RLConfig := ⟨5, 1000, 10⟩

/-- The mutable fields of the RateLimiter class; queueLen abstracts the task
queue to its length (task identity never influences admission). -/
structure RLState where
  queueLen : Nat
  activeRequests : Nat
  requestTimestamps : List Nat
  globalRetryAfter : Nat
deriving DecidableEq, Repr

/-- A fresh RateLimiter. -/
def rlInit : RLState := ⟨0, 0, [], 0⟩

/-- Observable events of the limiter, each stamped with its Date.now(). -/
inductive RLEvent where
  | schedule (t : Nat)
  | start (t : Nat)
  | finish (t : Nat)
  | prune (t : Nat)
  | backoff (t : Nat) (s : Nat)
deriving DecidableEq, Repr

/-- The clock reading of an event. -/
def RLEvent.time : RLEvent → Nat
  | .schedule t => t
  | .start t => t
  | .finish t => t
  | .prune t => t
  | .backoff t _ => t

/-- Line 44: requestTimestamps.filter(t => now - t < windowMs). -/
def pruneTs (w now : Nat) (ts : List Nat) : List Nat :=
  ts.filter (fun x => decide (now - x < w))

/-- One transition of the limiter. -/
inductive RLStep (cfg : RLConfig) : RLState → RLEvent → RLState → Prop where
  | schedule (st : RLState) (t : Nat) :
      RLStep cfg st (.schedule t) { st with queueLen := st.queueLen + 1 }
  | start (st : RLState) (t : Nat)
      (hb : st.globalRetryAfter ≤ t)
      (hc : st.activeRequests < cfg.maxConcurrent)
      (hw : (pruneTs cfg.windowMs t st.requestTimestamps).length < cfg.maxPerWindow)
      (hq : 0 < st.queueLen) :
      RLStep cfg st (.start t)
        ⟨st.queueLen - 1, st.activeRequests + 1,
          pruneTs cfg.windowMs t st.requestTimestamps ++ [t], st.globalRetryAfter⟩
  | finish (st : RLState) (t : Nat) (ha : 0 < st.activeRequests) :
      RLStep cfg st (.finish t) { st with activeRequests := st.activeRequests - 1 }
  | prune (st : RLState) (t : Nat)
      (hb : st.globalRetryAfter ≤ t)
      (hc : st.activeRequests < cfg.maxConcurrent) :
      RLStep cfg st (.prune t)
        { st with requestTimestamps := pruneTs cfg.windowMs t st.requestTimestamps }
  | backoff (st : RLState) (t s : Nat) :
      RLStep cfg st (.backoff t s) { st with globalRetryAfter := t + 1000 * s + 1000 }

/-- A run of the limiter: a chain of steps with non-decreasing clock
readings, from a state at a lower time bound to a final state and time. -/
inductive RLTrace (cfg : RLConfig) : RLState → Nat → List RLEvent → RLState → Nat → Prop where
  | nil (st : RLState) (tm : Nat) : RLTrace cfg st tm [] st tm
  | cons {st : RLState} {tm : Nat} {e : RLEvent} {st2 : RLState}
      {es : List RLEvent} {st3 : RLState} {tm3 : Nat}
      (hm : tm ≤ e.time) (hs : RLStep cfg st e st2)
      (ht : RLTrace cfg st2 e.time es st3 tm3) :
      RLTrace cfg st tm (e :: es) st3 tm3

/-- The clock readings of the start events of a run, in order. -/
def startTimes : List RLEvent → List Nat
  | [] => []
  | RLEvent.start t :: es => t :: startTimes es
  | RLEvent.schedule _ :: es => startTimes es
  | RLEvent.finish _ :: es => startTimes es
  | RLEvent.prune _ :: es => startTimes es
  | RLEvent.backoff _ _ :: es => startTimes es

@[simp] theorem startTimes_nil : startTimes [] = [] := rfl

@[simp] theorem startTimes_start (t : Nat) (es : List RLEvent) :
    startTimes (RLEvent.start t :: es) = t :: startTimes es := rfl

@[simp] theorem startTimes_schedule (t : Nat) (es : List RLEvent) :
    startTimes (RLEvent.schedule t :: es) = startTimes es := rfl

@[simp] theorem startTimes_finish (t : Nat) (es : List RLEvent) :
    startTimes (RLEvent.finish t :: es) = startTimes es := rfl

@[simp] theorem startTimes_prune (t : Nat) (es : List RLEvent) :
    startTimes (RLEvent.prune t :: es) = startTimes es := rfl

@[simp] theorem startTimes_backoff (t s : Nat) (es : List RLEvent) :
    startTimes (RLEvent.backoff t s :: es) = startTimes es := rfl

/-- A timestamp x is still recent at time y for window w. -/
def recentP (w y : Nat) : Nat → Bool := fun x => decide (y < x + w)

/-- A start time t lies in the half-open window [x, x + w). -/
def windowP (w x : Nat) : Nat → Bool := fun t => decide (x ≤ t) && decide (t < x + w)

/-- The quota invariant: against the current lower time bound tm, the
timestamp log dominates (countwise, at every cutoff y at or after tm) the
recent entries of the accumulated list of past start times. -/
def RLInv (w : Nat) (st : RLState) (tm : Nat) (acc : List Nat) : Prop :=
  ∀ y, tm ≤ y →
    acc.countP (recentP w y) ≤ st.requestTimestamps.countP (recentP w y)

theorem countP_and_of_imp {l : List Nat} {p q : Nat → Bool}
    (h : ∀ x, p x = true → q x = true) :
    l.countP (fun x => p x && q x) = l.countP p := by
  induction l with
  | nil => rfl
  | cons a t ih =>
    by_cases hp : p a = true
    · simp [List.countP_cons, hp, h a hp, ih]
    · simp [List.countP_cons, hp, ih]

theorem recent_imp_prune {w t y : Nat} (hw : 0 < w) (hty : t ≤ y) :
    ∀ x, recentP w y x = true → decide (t - x < w) = true := by
  intro x hx
  simp only [recentP, decide_eq_true_eq] at hx ⊢
  omega

/-- Pruning at time t only removes entries that are no longer recent at any
cutoff y at or after t. -/
theorem countP_pruneTs {w t y : Nat} (hw : 0 < w) (hty : t ≤ y) (ts : List Nat) :
    (pruneTs w t ts).countP (recentP w y) = ts.countP (recentP w y) := by
  unfold pruneTs
  rw [List.countP_filter]
  exact countP_and_of_imp (recent_imp_prune hw hty)

/-- Main induction for the quota bound: along any run, the invariant is
maintained, and at every start event the start times up to and including it
that are still recent at it number at most maxPerWindow. -/
theorem rl_inv_main {cfg : RLConfig} (hw : 0 < cfg.windowMs) {st : RLState} {tm : Nat}
    {es : List RLEvent} {st3 : RLState} {tm3 : Nat}
    (h : RLTrace cfg st tm es st3 tm3) :
    ∀ acc : List Nat, RLInv cfg.windowMs st tm acc →
      RLInv cfg.windowMs st3 tm3 (acc ++ startTimes es) ∧
      ∀ l₁ t l₂, startTimes es = l₁ ++ t :: l₂ →
        ((acc ++ l₁) ++ [t]).countP (recentP cfg.windowMs t) ≤ cfg.maxPerWindow := by
  induction h with
  | nil st tm =>
    intro acc hinv
    refine ⟨by simpa using hinv, ?_⟩
    intro l₁ t l₂ hsplit
    exact absurd hsplit (by cases l₁ <;> simp)
  | @cons st tm e st2 es st3 tm3 hm hs ht ih =>
    intro acc hinv
    cases hs with
    | schedule t =>
      have hinv2 : RLInv cfg.windowMs { st with queueLen := st.queueLen + 1 }
          (RLEvent.time (.schedule t)) acc :=
        fun y hy => hinv y (le_trans hm hy)
      obtain ⟨ha, hb⟩ := ih acc hinv2
      exact ⟨by simpa using ha, fun l₁ t2 l₂ hsplit => hb l₁ t2 l₂ (by simpa using hsplit)⟩
    | finish t hact =>
      have hinv2 : RLInv cfg.windowMs { st with activeRequests := st.activeRequests - 1 }
          (RLEvent.time (.finish t)) acc :=
        fun y hy => hinv y (le_trans hm hy)
      obtain ⟨ha, hb⟩ := ih acc hinv2
      exact ⟨by simpa using ha, fun l₁ t2 l₂ hsplit => hb l₁ t2 l₂ (by simpa using hsplit)⟩
    | backoff t s =>
      have hinv2 : RLInv cfg.windowMs { st with globalRetryAfter := t + 1000 * s + 1000 }
          (RLEvent.time (.backoff t s)) acc :=
        fun y hy => hinv y (le_trans hm hy)
      obtain ⟨ha, hb⟩ := ih acc hinv2
      exact ⟨by simpa using ha, fun l₁ t2 l₂ hsplit => hb l₁ t2 l₂ (by simpa using hsplit)⟩
    | prune t hbnd hcnd =>
      have hinv2 : RLInv cfg.windowMs
          { st with requestTimestamps := pruneTs cfg.windowMs t st.requestTimestamps }
          (RLEvent.time (.prune t)) acc := by
        intro y hy
        have hy2 : t ≤ y := hy
        have h1 := hinv y (le_trans hm hy)
        show acc.countP (recentP cfg.windowMs y)
          ≤ (pruneTs cfg.windowMs t st.requestTimestamps).countP (recentP cfg.windowMs y)
        rw [countP_pruneTs hw hy2]
        exact h1
      obtain ⟨ha, hb⟩ := ih acc hinv2
      exact ⟨by simpa using ha, fun l₁ t2 l₂ hsplit => hb l₁ t2 l₂ (by simpa using hsplit)⟩
    | start t hbnd hcnd hwin hq =>
      have hstep : ∀ y, t ≤ y →
          acc.countP (recentP cfg.windowMs y)
            ≤ (pruneTs cfg.windowMs t st.requestTimestamps).countP (recentP cfg.windowMs y) := by
        intro y hy
        rw [countP_pruneTs hw hy]
        exact hinv y (le_trans hm hy)
      have hlocal : (acc ++ [t]).countP (recentP cfg.windowMs t) ≤ cfg.maxPerWindow := by
        have h1 := hstep t le_rfl
        have h2 := List.countP_le_length (recentP cfg.windowMs t)
          (l := pruneTs cfg.windowMs t st.requestTimestamps)
        have h3 : recentP cfg.windowMs t t = true := by
          simp only [recentP, decide_eq_true_eq]
          omega
        rw [List.countP_append]
        simp [List.countP_cons, h3]
        omega
      have hinv2 : RLInv cfg.windowMs
          ⟨st.queueLen - 1, st.activeRequests + 1,
            pruneTs cfg.windowMs t st.requestTimestamps ++ [t], st.globalRetryAfter⟩
          (RLEvent.time (.start t)) (acc ++ [t]) := by
        intro y hy
        rw [List.countP_append, List.countP_append]
        exact Nat.add_le_add_right (hstep y hy) _
      obtain ⟨ha, hb⟩ := ih (acc ++ [t]) hinv2
      constructor
      · have hl : (acc ++ [t]) ++ startTimes es = acc ++ startTimes (RLEvent.start t :: es) := by
          simp
        exact hl ▸ ha
      · intro l₁ t2 l₂ hsplit
        rw [startTimes_start] at hsplit
        cases l₁ with
        | nil =>
          simp only [List.nil_append] at hsplit
          obtain ⟨rfl, rfl⟩ : t2 = t ∧ l₂ = startTimes es := by
            constructor <;> [exact (List.cons.injEq .. ▸ hsplit).1.symm;
              exact (List.cons.injEq .. ▸ hsplit).2.symm]
          simpa using hlocal
        | cons b l₁ =>
          simp only [List.cons_append, List.cons.injEq] at hsplit
          obtain ⟨rfl, hsplit2⟩ := hsplit
          have hres := hb l₁ t2 l₂ hsplit2
          have hl : ((acc ++ [t]) ++ l₁) ++ [t2] = (acc ++ t :: l₁) ++ [t2] := by simp
          exact hl ▸ hres

/-- The in-flight counter never exceeds maxConcurrent along any run that
starts within the bound. -/
theorem rl_active {cfg : RLConfig} {st : RLState} {tm : Nat}
    {es : List RLEvent} {st3 : RLState} {tm3 : Nat}
    (h : RLTrace cfg st tm es st3 tm3)
    (h0 : st.activeRequests ≤ cfg.maxConcurrent) :
    st3.activeRequests ≤ cfg.maxConcurrent := by
  induction h with
  | nil st tm => exact h0
  | @cons st tm e st2 es st3 tm3 hm hs ht ih =>
    apply ih
    cases hs with
    | schedule t => exact h0
    | finish t hact => exact le_trans (Nat.sub_le _ _) h0
    | prune t hbnd hcnd => exact h0
    | backoff t s => exact h0
    | start t hbnd hcnd hwin hq => exact hcnd

/-- Every list has a last element satisfying p, unless none does. -/
theorem lastSat {α : Type _} (p : α → Bool) (l : List α) :
    l.countP p = 0 ∨
    ∃ l₁ a l₂, l = l₁ ++ a :: l₂ ∧ p a = true ∧ l₂.countP p = 0 := by
  induction l with
  | nil => exact Or.inl rfl
  | cons x t ih =>
    rcases ih with h0 | ⟨l₁, a, l₂, rfl, hpa, hl2⟩
    · by_cases hx : p x = true
      · exact Or.inr ⟨[], x, t, rfl, hx, h0⟩
      · left
        simp [List.countP_cons, hx, h0]
    · exact Or.inr ⟨x :: l₁, a, l₂, rfl, hpa, hl2⟩

/-! ## Claim C2: concurrency and rolling-window quota -/

/-- C2.  For any run of the limiter from a fresh state under a configuration
with a positive window (updateConfig cannot set windowMs to 0, and the
default is 1000): the in-flight count of every reachable state is at most
maxConcurrent, and the number of task starts inside any window [x, x + W)
of length W = windowMs is at most maxPerWindow.  (Every reachable state is
the final state of some run, so the first conjunct covers all of them.) -/
theorem C2_rate_limits (cfg : RLConfig) (hW : 0 < cfg.windowMs)
    (es : List RLEvent) (st : RLState) (tm : Nat)
    (h : RLTrace cfg rlInit 0 es st tm) :
    st.activeRequests ≤ cfg.maxConcurrent ∧
    ∀ x, (startTimes es).countP (windowP cfg.windowMs x) ≤ cfg.maxPerWindow := by
  constructor
  · exact rl_active h (by simp [rlInit])
  · intro x
    have hinv0 : RLInv cfg.windowMs rlInit 0 [] := by
      intro y hy
      simp [rlInit]
    have main := rl_inv_main hW h [] hinv0
    rcases lastSat (windowP cfg.windowMs x) (startTimes es) with h0 | ⟨l₁, a, l₂, hsplit, hpa, hl2⟩
    · simp [h0]
    · have hb := main.2 l₁ a l₂ hsplit
      have hxa : x ≤ a ∧ a < x + cfg.windowMs := by
        simpa [windowP, decide_eq_true_eq] using hpa
      have hmono : (l₁ ++ [a]).countP (windowP cfg.windowMs x)
          ≤ (l₁ ++ [a]).countP (recentP cfg.windowMs a) := by
        apply List.countP_mono_left
        intro z hz hwz
        simp only [windowP, Bool.and_eq_true, decide_eq_true_eq] at hwz
        simp only [recentP, decide_eq_true_eq]
        omega
      have heq : (startTimes es).countP (windowP cfg.windowMs x)
          = (l₁ ++ [a]).countP (windowP cfg.windowMs x) := by
        rw [hsplit, List.countP_append, List.countP_append, List.countP_cons]
        simp [hl2, hpa]
      rw [heq]
      refine le_trans hmono (le_trans (le_of_eq ?_) hb)
      simp

/-- Witness for C2: the scenario configuration N = 2, M = 3, W = 1000 ms,
with one task scheduled and started at time 0. -/
theorem C2_rate_limits_witness :
    (⟨0, 1, [0], 0⟩ : RLState).activeRequests ≤ 2 ∧
    (startTimes [RLEvent.schedule 0, RLEvent.start 0]).countP (windowP 1000 0) ≤ 3 := by
  have htr : RLTrace ⟨2, 1000, 3⟩ rlInit 0
      [RLEvent.schedule 0, RLEvent.start 0] ⟨0, 1, [0], 0⟩ 0 := by
    refine RLTrace.cons (by decide) (RLStep.schedule rlInit 0) ?_
    refine RLTrace.cons (by decide)
      (RLStep.start _ 0 (by decide) (by decide) (by decide) (by decide)) ?_
    exact RLTrace.nil _ _
  have h := C2_rate_limits ⟨2, 1000, 3⟩ (by decide) _ _ _ htr
  exact ⟨h.1, h.2 0⟩

/-! ## Claim C1: the global backoff pause -/

/-- The literal reading of the claim: whenever a run contains a
setGlobalBackoff(s) call at time t, every later task start happens at or
after t + 1000 * s (that is, no task starts within s seconds of the call). -/
def backoffRespected (es : List RLEvent) : Prop :=
  ∀ es₁ t s es₂ u es₃,
    es = es₁ ++ RLEvent.backoff t s :: es₂ ++ RLEvent.start u :: es₃ →
    t + 1000 * s ≤ u

/-- The run refuting the literal claim: setGlobalBackoff(10) at time 0 is
followed by setGlobalBackoff(0) at time 1 (two rate-limit responses whose
Retry-After headers are 10 and 0); the second call overwrites (rather than
maximises) the deadline, so a task starts at time 1001 ms, well before the
ten seconds promised by the first call. -/
def c1events : List RLEvent :=
  [RLEvent.schedule 0, RLEvent.backoff 0 10, RLEvent.backoff 1 0, RLEvent.start 1001]

/-- C1 counterexample.  The run c1events is a valid run of the limiter
under its default configuration, yet it violates the claimed property: the
start at 1001 ms follows the backoff(10) call made at time 0 after only
1.001 seconds, because setGlobalBackoff assigns globalRetryAfter instead of
pushing it forward monotonically. -/
theorem C1_counterexample :
    RLTrace rlDefaultConfig rlInit 0 c1events ⟨0, 1, [1001], 1001⟩ 1001 ∧
    ¬ backoffRespected c1events := by
  constructor
  · refine RLTrace.cons (by decide) (RLStep.schedule rlInit 0) ?_
    refine RLTrace.cons (by decide) (RLStep.backoff _ 0 10) ?_
    refine RLTrace.cons (by decide) (RLStep.backoff _ 1 0) ?_
    refine RLTrace.cons (by decide)
      (RLStep.start _ 1001 (by decide) (by decide) (by decide) (by decide)) ?_
    exact RLTrace.nil _ _
  · intro hr
    have := hr [RLEvent.schedule 0] 0 10 [RLEvent.backoff 1 0] 1001 [] rfl
    omega

/-- Splitting a run at a list split of its events. -/
theorem rl_trace_append {cfg : RLConfig} {st : RLState} {tm : Nat}
    {xs ys : List RLEvent} {st3 : RLState} {tm3 : Nat}
    (h : RLTrace cfg st tm (xs ++ ys) st3 tm3) :
    ∃ st2 tm2, RLTrace cfg st tm xs st2 tm2 ∧ RLTrace cfg st2 tm2 ys st3 tm3 := by
  induction xs generalizing st tm with
  | nil => exact ⟨st, tm, RLTrace.nil _ _, h⟩
  | cons e es ih =>
    cases h with
    | cons hm hs ht =>
      obtain ⟨st2, tm2, h1, h2⟩ := ih ht
      exact ⟨st2, tm2, RLTrace.cons hm hs h1, h2⟩

/-- Only backoff events modify globalRetryAfter. -/
theorem rl_gRA_stable {cfg : RLConfig} {st : RLState} {tm : Nat}
    {es : List RLEvent} {st3 : RLState} {tm3 : Nat}
    (h : RLTrace cfg st tm es st3 tm3)
    (hnb : ∀ t s, RLEvent.backoff t s ∉ es) :
    st3.globalRetryAfter = st.globalRetryAfter := by
  induction h with
  | nil st tm => rfl
  | @cons st tm e st2 es st3 tm3 hm hs ht ih =>
    have hnb2 : ∀ t s, RLEvent.backoff t s ∉ es :=
      fun t s hmem => hnb t s (List.mem_cons_of_mem _ hmem)
    rw [ih hnb2]
    cases hs with
    | schedule t => rfl
    | finish t hact => rfl
    | prune t hbnd hcnd => rfl
    | start t hbnd hcnd hwin hq => rfl
    | backoff t s => exact absurd (List.mem_cons_self (RLEvent.backoff t s) es) (hnb t s)

/-- C1 amended.  After a setGlobalBackoff(s) call at time t, as long as no
further setGlobalBackoff call intervenes, no task starts before t + s
seconds (the code in fact guarantees t + s + 1 seconds); the unqualified
claim fails because a later call overwrites the deadline instead of pushing
it forward (see the counterexample). -/
theorem C1_amended_backoff (cfg : RLConfig) (es₁ es₂ es₃ : List RLEvent)
    (t s u : Nat) (st3 : RLState) (tm3 : Nat)
    (h : RLTrace cfg rlInit 0
      (es₁ ++ RLEvent.backoff t s :: (es₂ ++ RLEvent.start u :: es₃)) st3 tm3)
    (hnb : ∀ t2 s2, RLEvent.backoff t2 s2 ∉ es₂) :
    t + 1000 * s ≤ u := by
  obtain ⟨stA, tmA, h1, h2⟩ := rl_trace_append h
  cases h2 with
  | cons hm hs ht =>
    cases hs with
    | backoff =>
      obtain ⟨stC, tmC, h3, h4⟩ := rl_trace_append ht
      have hg : stC.globalRetryAfter = t + 1000 * s + 1000 := rl_gRA_stable h3 hnb
      cases h4 with
      | cons hm2 hs2 ht2 =>
        cases hs2 with
        | start u hb2 hc2 hw2 hq2 =>
          rw [hg] at hb2
          omega

/-- Witness for the amended C1: backoff(2) at time 0, a task scheduled at
time 5, started at time 3000 = 0 + 2 * 1000 + 1000. -/
theorem C1_amended_backoff_witness : 0 + 1000 * 2 ≤ 3000 := by
  have htr : RLTrace rlDefaultConfig rlInit 0
      ([] ++ RLEvent.backoff 0 2 :: ([RLEvent.schedule 5] ++ RLEvent.start 3000 :: []))
      ⟨0, 1, [3000], 3000⟩ 3000 := by
    refine RLTrace.cons (by decide) (RLStep.backoff rlInit 0 2) ?_
    refine RLTrace.cons (by decide) (RLStep.schedule _ 5) ?_
    refine RLTrace.cons (by decide)
      (RLStep.start _ 3000 (by decide) (by decide) (by decide) (by decide)) ?_
    exact RLTrace.nil _ _
  exact C1_amended_backoff rlDefaultConfig [] [RLEvent.schedule 5] [] 0 2 3000
    ⟨0, 1, [3000], 3000⟩ 3000 htr (by intro t2 s2 hmem; simp at hmem)

/-! ## Embedding of fetchWithRetry (services/apiUtils.ts, lines 84-158)

The retry loop is a pure function of the sequence of per-attempt results:
seq n is what the n-th fetch(url) produced (0-based).  The backoff sleeps
and the limiter interaction are timing aspects handled by the RateLimiter
section; here only the control flow and the produced error matter.  The
429/503 throw on the last attempt happens inside the try block, is caught,
is neither a Backend Error nor a network TypeError, breaks the loop and is
rethrown verbatim at the end, so the model returns it directly.  Apostrophe
characters of the source messages are elided. -/

/-- Result of one fetch(url) call: a network-layer failure (a TypeError
whose message says Failed to fetch), or a response with its status, whether
its Content-Type includes application/json, its optional parsed Retry-After
header, and its body text. -/
inductive AttemptResult where
  | netError
  | resp (status : Nat) (jsonContentType : Bool) (retryAfterHeader : Option Nat) (body : String)
deriving DecidableEq, Repr

/-- What fetchWithRetry delivers: the returned response, or a thrown error
abstracted to its message. -/
inductive FetchOutcome where
  | ok (status : Nat) (jsonContentType : Bool) (retryAfterHeader : Option Nat) (body : String)
  | error (msg : String)
deriving DecidableEq, Repr

/-- The Backend Error thrown for a 404 whose Content-Type is not JSON
(line 109), with the first 100 body characters inlined. -/
def backendErrorMsg (url body : String) : String :=
  "Backend Error: The proxy server returned 404 for " ++ url ++ ". Response: "
    ++ takeStr 100 body ++ "... Ensure npm start is running and server.js handles this route."

/-- The error thrown when 429/503 retries are exhausted (line 121). -/
def serverBusyMsg (ra : Nat) : String :=
  "Server is busy. Please try again in " ++ toString ra ++ " seconds."

/-- The url-dependent message network-failure exhaustion is rewritten to
(lines 147-155). -/
def networkErrorMsg (url : String) : String :=
  if containsStr url "/api/freshdesk" then
    "Network Error: Cannot reach the local proxy at " ++ url
      ++ ". Ensure the server is running on port 8080."
  else if containsStr url "run.app" then
    "Network Error: Cloud Proxy (" ++ url
      ++ ") connection rejected. This often means a CORS configuration issue on the server."
  else
    "Network Error: Unable to connect to the server (" ++ url
      ++ "). Please check your internet connection."

/-- parseInt(Retry-After) with the default of 5 when the header is absent
or unparsable (line 115). -/
def retryAfterOf (h : Option Nat) : Nat := h.getD 5

/-- The attempt loop of fetchWithRetry from attempt i with the given number
of retries still allowed.  Returns the outcome and the total number of
attempts performed (i + 1 when attempt i terminates the loop). -/
def fetchGo (url : String) (seq : Nat → AttemptResult) : Nat → Nat → FetchOutcome × Nat
  | i, 0 =>
    match seq i with
    | .netError => (.error (networkErrorMsg url), i + 1)
    | .resp status json ra body =>
      if status == 404 && !json then (.error (backendErrorMsg url body), i + 1)
      else if status == 429 || status == 503 then
        (.error (serverBusyMsg (retryAfterOf ra)), i + 1)
      else (.ok status json ra body, i + 1)
  | i, fuel + 1 =>
    match seq i with
    | .netError => fetchGo url seq (i + 1) fuel
    | .resp status json ra body =>
      if status == 404 && !json then (.error (backendErrorMsg url body), i + 1)
      else if status == 429 || status == 503 then fetchGo url seq (i + 1) fuel
      else (.ok status json ra body, i + 1)

/-- Source: fetchWithRetry(url, options, maxRetries = 2): attempts
0 .. maxRetries, retrying network failures and 429/503, failing fast on a
non-JSON 404, returning every other response. -/
def fetchWithRetry (url : String) (seq : Nat → AttemptResult) (maxRetries : Nat) :
    FetchOutcome × Nat :=
  fetchGo url seq 0 maxRetries

theorem startsWithL_of_append (p r : List Char) : startsWithL p (p ++ r) = true := by
  induction p with
  | nil => rfl
  | cons a ps ih => simp [startsWithL, ih]

theorem containsL_of_startsWith {pat l : List Char} (h : startsWithL pat l = true) :
    containsL pat l = true := by
  cases l with
  | nil =>
    cases pat with
    | nil => rfl
    | cons a ps => exact absurd h (by simp [startsWithL])
  | cons c rest => simp [containsL, h]

/-- A string that begins with the pattern contains it. -/
theorem containsStr_self_append (pat tail : String) :
    containsStr (pat ++ tail) pat = true := by
  unfold containsStr
  have hd : (pat ++ tail).data = pat.data ++ tail.data := by
    cases pat
    cases tail
    rfl
  rw [hd]
  exact containsL_of_startsWith (startsWithL_of_append pat.data tail.data)

theorem data_append (a b : String) : (a ++ b).data = a.data ++ b.data := by
  cases a
  cases b
  rfl

theorem startsWithL_append_of {p a : List Char} (r : List Char)
    (h : startsWithL p a = true) : startsWithL p (a ++ r) = true := by
  induction p generalizing a with
  | nil => rfl
  | cons x ps ih =>
    cases a with
    | nil => exact absurd h (by simp [startsWithL])
    | cons y ys =>
      simp only [startsWithL, Bool.and_eq_true] at h
      simp only [List.cons_append, startsWithL, Bool.and_eq_true]
      exact ⟨h.1, ih h.2⟩

/-- The Backend Error message always carries its distinguishing marker. -/
theorem backendErrorMsg_marker (url body : String) :
    containsStr (backendErrorMsg url body) "Backend Error" = true := by
  unfold containsStr backendErrorMsg
  apply containsL_of_startsWith
  simp only [data_append, List.append_assoc]
  exact startsWithL_append_of _ (by decide)

/-- Skipping an initial block of network-failed attempts. -/
theorem fetchGo_net_skip (url : String) (seq : Nat → AttemptResult) :
    ∀ n i fuel, (∀ j, j < n → seq (i + j) = AttemptResult.netError) → n ≤ fuel →
      fetchGo url seq i fuel = fetchGo url seq (i + n) (fuel - n) := by
  intro n
  induction n with
  | zero => intro i fuel _ _; simp
  | succ n ih =>
    intro i fuel hnet hle
    cases fuel with
    | zero => omega
    | succ fuel2 =>
      have h0 : seq i = AttemptResult.netError := by
        have := hnet 0 (Nat.succ_pos n)
        simpa using this
      have hstep : fetchGo url seq i (fuel2 + 1) = fetchGo url seq (i + 1) fuel2 := by
        simp [fetchGo, h0]
      rw [hstep, ih (i + 1) fuel2 (fun j hj => by
        have := hnet (j + 1) (by omega)
        simpa [Nat.add_assoc, Nat.add_comm 1 j] using this) (by omega)]
      have e1 : i + 1 + n = i + (n + 1) := by omega
      have e2 : fuel2 - n = fuel2 + 1 - (n + 1) := by omega
      rw [e1, e2]

/-! ## Claim C7: non-JSON 404 fails fast and distinguishably -/

/-- C7.  If the attempt i of a fetchWithRetry call (reached after i network
failures, i at most maxRetries) receives a 404 whose Content-Type is not
JSON, the call terminates at that attempt — exactly i + 1 attempts are
performed, none after the 404 — throwing the Backend Error message, which
carries the marker Backend Error that neither the network-exhaustion
message (here at the proxy url) nor the server-busy message contains. -/
theorem C7_nonjson404_fails_fast (url : String) (seq : Nat → AttemptResult)
    (maxRetries i : Nat) (ra : Option Nat) (body : String)
    (hi : i ≤ maxRetries)
    (hprev : ∀ j, j < i → seq j = AttemptResult.netError)
    (hit : seq i = AttemptResult.resp 404 false ra body) :
    fetchWithRetry url seq maxRetries
      = (FetchOutcome.error (backendErrorMsg url body), i + 1) ∧
    containsStr (backendErrorMsg url body) "Backend Error" = true ∧
    containsStr (networkErrorMsg "/api/freshdesk/v2/tickets") "Backend Error" = false ∧
    containsStr (serverBusyMsg 5) "Backend Error" = false := by
  refine ⟨?_, backendErrorMsg_marker url body, by decide, by decide⟩
  unfold fetchWithRetry
  have hskip := fetchGo_net_skip url seq i 0 maxRetries
    (fun j hj => by simpa using hprev j hj) hi
  simp only [Nat.zero_add] at hskip
  rw [hskip]
  cases hfuel : maxRetries - i with
  | zero => simp [fetchGo, hit]
  | succ fuel2 => simp [fetchGo, hit]

/-- The attempt sequence of the witness: one network failure, then the
non-JSON 404. -/
def c7seq : Nat → AttemptResult := fun n =>
  if n == 0 then AttemptResult.netError
  else AttemptResult.resp 404 false none "<html>Not Found</html>"

theorem C7_nonjson404_fails_fast_witness :
    fetchWithRetry "/api/freshdesk/v2/tickets" c7seq 2
      = (FetchOutcome.error
          (backendErrorMsg "/api/freshdesk/v2/tickets" "<html>Not Found</html>"), 2) ∧
    containsStr (backendErrorMsg "/api/freshdesk/v2/tickets" "<html>Not Found</html>")
      "Backend Error" = true ∧
    containsStr (networkErrorMsg "/api/freshdesk/v2/tickets") "Backend Error" = false ∧
    containsStr (serverBusyMsg 5) "Backend Error" = false :=
  C7_nonjson404_fails_fast "/api/freshdesk/v2/tickets" c7seq 2 1 none "<html>Not Found</html>"
    (by decide)
    (fun j hj => by
      have hj0 : j = 0 := by omega
      subst hj0
      rfl)
    rfl

/-! ## Embedding of the search-mode paginator (part_005, lines 112-162) -/

/-- The search branch of fetchPaginatedFreshdeskAPI, as a function of the
page-1 payload (results list and total) and of the later pages: pageFetch p
is some results when the request for page p succeeded with an ok response
carrying a results array, and none when it failed or was rejected (the
source maps every such page to an empty array).  Page size is 30 in search
mode; the page count is ceil(total / 30) capped at 10; pages 2 and onward
are requested only when total exceeds the page-1 count, and their results
are concatenated after page 1. -/
def fetchPaginatedSearch {α : Type _} (firstResults : List α) (total : Nat)
    (pageFetch : Nat → Option (List α)) : List α :=
  let pageSize := 30
  let searchMaxPages := min ((total + pageSize - 1) / pageSize) 10
  if firstResults.length < total then
    firstResults ++ ((List.range' 2 (searchMaxPages - 1)).map
      (fun p => (pageFetch p).getD [])).flatten
  else firstResults

/-! ## Claim C8: total = 73 with page size 30 -/

/-- C8.  For a search run whose three pages partition 73 reported items
(30 + 30 + 13): with both later pages succeeding the paginator returns
exactly 73 items; a failed later page contributes an empty result, making
the count strictly smaller; and the count never exceeds 73. -/
theorem C8_search_total {α : Type _} (p1 p2 p3 : List α) (b2 b3 : Bool)
    (h1 : p1.length = 30) (h2 : p2.length = 30) (h3 : p3.length = 13) :
    (fetchPaginatedSearch p1 73 (fun n =>
        if n == 2 then (if b2 then some p2 else none)
        else if n == 3 then (if b3 then some p3 else none) else none)).length
      = 30 + (if b2 then 30 else 0) + (if b3 then 13 else 0) ∧
    (fetchPaginatedSearch p1 73 (fun n =>
        if n == 2 then (if b2 then some p2 else none)
        else if n == 3 then (if b3 then some p3 else none) else none)).length ≤ 73 ∧
    (b2 = true → b3 = true →
      (fetchPaginatedSearch p1 73 (fun n =>
        if n == 2 then (if b2 then some p2 else none)
        else if n == 3 then (if b3 then some p3 else none) else none)).length = 73) ∧
    ((b2 = false ∨ b3 = false) →
      (fetchPaginatedSearch p1 73 (fun n =>
        if n == 2 then (if b2 then some p2 else none)
        else if n == 3 then (if b3 then some p3 else none) else none)).length < 73) := by
  have hpages : List.range' 2 (min ((73 + 30 - 1) / 30) 10 - 1) = [2, 3] := by decide
  have hmain : (fetchPaginatedSearch p1 73 (fun n =>
      if n == 2 then (if b2 then some p2 else none)
      else if n == 3 then (if b3 then some p3 else none) else none)).length
      = 30 + (if b2 then 30 else 0) + (if b3 then 13 else 0) := by
    unfold fetchPaginatedSearch
    rw [if_pos (by omega)]
    rw [hpages]
    cases b2 <;> cases b3 <;>
      simp [h1, h2, h3]
  refine ⟨hmain, ?_, ?_, ?_⟩
  · rw [hmain]; cases b2 <;> cases b3 <;> simp
  · intro hb2 hb3; rw [hmain, hb2, hb3]; simp
  · intro hor
    rw [hmain]
    rcases hor with hb | hb <;> rw [hb] <;> cases b2 <;> cases b3 <;> simp_all

theorem C8_search_total_witness :
    (fetchPaginatedSearch (List.replicate 30 0) 73 (fun n =>
        if n == 2 then (if true then some (List.replicate 30 0) else none)
        else if n == 3 then (if true then some (List.replicate 13 0) else none) else none)).length
      = 30 + (if true then 30 else 0) + (if true then 13 else 0) :=
  (C8_search_total (List.replicate 30 0) (List.replicate 30 0) (List.replicate 13 0) true true
    (by decide) (by decide) (by decide)).1

/-! ## Embedding of the service-layer error classification (part_005) -/

/-- Source: handleApiError(response, context) — the message of the error it
throws, as a function of the response status, the context string, and the
message parseApiError extracted from the body (only used by the branches
that interpolate it). -/
def handleApiError (status : Nat) (context errorMsg : String) : String :=
  if status == 401 then
    "Authentication Failed: Ensure your API Key is correct. (" ++ context ++ ")"
  else if status == 403 then
    "Access Denied: You do not have permission to access " ++ context ++ "."
  else if status == 429 then
    "Rate Limit Exceeded: Freshdesk is busy. Please try again in a minute."
  else if status == 404 then
    "Not Found: The requested " ++ context ++ " could not be found."
  else if 500 ≤ status then
    "Freshdesk System Error (" ++ toString status ++ "): Please try again later. ("
      ++ errorMsg ++ ")"
  else
    "API Error (" ++ toString status ++ "): " ++ errorMsg

/-- The fallback trigger of getTicketsUpdatedInPeriod (line 243):
(e.message.includes(403) || e.message.includes(400)) || e.status === 403.
The errors reaching it are plain Error objects thrown by handleApiError and
carry no status field, so the e.status disjunct is always false there. -/
def isFallbackError (msg : String) : Bool :=
  containsStr msg "403" || containsStr msg "400"

/-- The try/catch skeleton of getTicketsUpdatedInPeriod: the primary list
query either succeeds (its result is then filtered locally and returned) or
throws a message; a thrown message triggers the bounded search fallback only
when isFallbackError accepts it, and is otherwise rethrown. -/
def getTicketsUpdatedInPeriodOutcome (primary : Except String (List Ticket))
    (fallback : List Ticket) : Except String (List Ticket) :=
  match primary with
  | .ok ts => .ok ts
  | .error msg => if isFallbackError msg then .ok fallback else .error msg

/-- The context string fetchPaginatedFreshdeskAPI hands to handleApiError
for the primary tickets-updated-in-period query: the endpoint with its query
parameters (line 128 passes the endpoint as context). -/
def listEndpointContext : String :=
  "/v2/tickets?updated_since=2024-01-01T00:00:00Z&include=description,stats,requester&order_by=updated_at&order_type=asc"

/-! ## Claim C6: the 403 fallback -/

deriving instance DecidableEq for Except

set_option maxRecDepth 40000 in
/-- C6 code-bug evidence.  A 403 on the primary list endpoint makes
handleApiError throw the Access Denied message, which contains neither the
digits 403 nor 400 (and, being a plain Error, has no status field), so
isFallbackError rejects it and getTicketsUpdatedInPeriod rethrows instead of
issuing the documented search fallback.  A 400 produces the generic
API Error (400) message and does trigger the fallback, confirming that the
403 arm of the catch clause is dead for errors produced by this code path. -/
theorem C6_fallback_never_fires_on_403 :
    handleApiError 403 listEndpointContext "Access forbidden"
      = "Access Denied: You do not have permission to access " ++ listEndpointContext ++ "." ∧
    isFallbackError (handleApiError 403 listEndpointContext "Access forbidden") = false ∧
    getTicketsUpdatedInPeriodOutcome
        (Except.error (handleApiError 403 listEndpointContext "Access forbidden")) []
      = Except.error (handleApiError 403 listEndpointContext "Access forbidden") ∧
    isFallbackError (handleApiError 400 listEndpointContext "Bad Request") = true := by
  refine ⟨by decide, by decide, by decide, by decide⟩

/-! ## Structure of the two aggregation passes (towards C9 and C3) -/

/-- The admission predicate of pass 2, for agent a with touched set ids. -/
def closedForB (am : AgentMap) (s e : Int) (a : Int) (ids : List Int) (tk : Ticket) : Bool :=
  ticketClosedInWindow s e tk && tk.responder_id == a
    && (lookupMap am a).isSome && ids.contains tk.id

theorem pass2Ticket_eq_ite (am : AgentMap) (s e : Int) (a : Int) (ids : List Int)
    (d : AgentData) (tk : Ticket) :
    pass2Ticket am s e a ids d tk
      = if closedForB am s e a ids tk = true then pass2Ticket am s e a ids d tk else d := by
  unfold closedForB pass2Ticket
  split <;> simp_all

theorem pass2Ticket_ticketIds (am : AgentMap) (s e : Int) (a : Int) (ids : List Int)
    (d : AgentData) (tk : Ticket) :
    (pass2Ticket am s e a ids d tk).ticketIds = d.ticketIds := by
  unfold pass2Ticket
  split <;> rfl

theorem pass2_fold_ticketIds (am : AgentMap) (s e : Int) (a : Int) (ids : List Int)
    (tickets : List Ticket) :
    ∀ d, (tickets.foldl (pass2Ticket am s e a ids) d).ticketIds = d.ticketIds := by
  induction tickets with
  | nil => intro d; rfl
  | cons tk ts ih =>
    intro d
    rw [List.foldl_cons, ih, pass2Ticket_ticketIds]

theorem pass2Ticket_totalClosed (am : AgentMap) (s e : Int) (a : Int) (ids : List Int)
    (d : AgentData) (tk : Ticket) :
    (pass2Ticket am s e a ids d tk).totalClosed
      = d.totalClosed + (if closedForB am s e a ids tk = true then 1 else 0) := by
  unfold pass2Ticket closedForB
  split <;> simp_all

theorem pass2_fold_totalClosed (am : AgentMap) (s e : Int) (a : Int) (ids : List Int)
    (tickets : List Ticket) :
    ∀ d, (tickets.foldl (pass2Ticket am s e a ids) d).totalClosed
      = d.totalClosed + tickets.countP (closedForB am s e a ids) := by
  induction tickets with
  | nil => intro d; simp
  | cons tk ts ih =>
    intro d
    rw [List.foldl_cons, ih, pass2Ticket_totalClosed, List.countP_cons]
    omega

theorem applyConv_totalClosed (am : AgentMap) (s e : Int) (a : Int) (tid : Int)
    (d : AgentData) (c : Conversation) :
    (applyConv am s e a tid d c).totalClosed = d.totalClosed := by
  unfold applyConv
  split <;> rfl

theorem pass1Ticket_totalClosed (am : AgentMap) (s e : Int) (a : Int)
    (d : AgentData) (tk : Ticket) :
    (pass1Ticket am s e a d tk).totalClosed = d.totalClosed := by
  unfold pass1Ticket
  have hconvs : ∀ cs d2, ((cs : List Conversation).foldl (applyConv am s e a tk.id) d2).totalClosed
      = d2.totalClosed := by
    intro cs
    induction cs with
    | nil => intro d2; rfl
    | cons c cs2 ih => intro d2; rw [List.foldl_cons, ih, applyConv_totalClosed]
  split <;> simp [hconvs]

theorem pass1_totalClosed (am : AgentMap) (s e : Int) (a : Int) (tickets : List Ticket) :
    (pass1 am s e a tickets).totalClosed = 0 := by
  unfold pass1
  have hfold : ∀ ts d, ((ts : List Ticket).foldl (pass1Ticket am s e a) d).totalClosed
      = d.totalClosed := by
    intro ts
    induction ts with
    | nil => intro d; rfl
    | cons tk ts2 ih => intro d; rw [List.foldl_cons, ih, pass1Ticket_totalClosed]
  rw [hfold]
  rfl

theorem addToSet_nodup (x : Int) (l : List Int) (h : l.Nodup) : (addToSet x l).Nodup := by
  unfold addToSet
  split
  · exact h
  · rename_i hc
    have hx : x ∉ l := by
      intro hmem
      exact hc (List.elem_eq_true_of_mem hmem)
    simp [List.nodup_append, h, hx]

theorem applyConv_ticketIds_nodup (am : AgentMap) (s e : Int) (a : Int) (tid : Int)
    (d : AgentData) (c : Conversation) (h : d.ticketIds.Nodup) :
    (applyConv am s e a tid d c).ticketIds.Nodup := by
  unfold applyConv
  split
  · exact addToSet_nodup tid d.ticketIds h
  · exact h

theorem pass1Ticket_ticketIds_nodup (am : AgentMap) (s e : Int) (a : Int)
    (d : AgentData) (tk : Ticket) (h : d.ticketIds.Nodup) :
    (pass1Ticket am s e a d tk).ticketIds.Nodup := by
  unfold pass1Ticket
  have hconvs : ∀ cs d2, (d2 : AgentData).ticketIds.Nodup →
      ((cs : List Conversation).foldl (applyConv am s e a tk.id) d2).ticketIds.Nodup := by
    intro cs
    induction cs with
    | nil => intro d2 h2; exact h2
    | cons c cs2 ih =>
      intro d2 h2
      rw [List.foldl_cons]
      exact ih _ (applyConv_ticketIds_nodup am s e a tk.id d2 c h2)
  split
  · exact hconvs tk.conversations d h
  · exact hconvs tk.conversations d h

theorem pass1_ticketIds_nodup (am : AgentMap) (s e : Int) (a : Int) (tickets : List Ticket) :
    (pass1 am s e a tickets).ticketIds.Nodup := by
  unfold pass1
  have hfold : ∀ ts d, (d : AgentData).ticketIds.Nodup →
      ((ts : List Ticket).foldl (pass1Ticket am s e a) d).ticketIds.Nodup := by
    intro ts
    induction ts with
    | nil => intro d h; exact h
    | cons tk ts2 ih =>
      intro d h
      rw [List.foldl_cons]
      exact ih _ (pass1Ticket_ticketIds_nodup am s e a d tk h)
  exact hfold tickets emptyAgentData (by simp [emptyAgentData])

/-- With pairwise-distinct ticket ids, pass 2 admits at most one ticket per
element of the touched set. -/
theorem countP_closedForB_le (am : AgentMap) (s e : Int) (a : Int) :
    ∀ (tickets : List Ticket) (ids : List Int),
      (tickets.map Ticket.id).Nodup → ids.Nodup →
      tickets.countP (closedForB am s e a ids) ≤ ids.length := by
  intro tickets
  induction tickets with
  | nil => intro ids _ _; simp
  | cons tk ts ih =>
    intro ids hids hnod
    have hhead : tk.id ∉ ts.map Ticket.id := (List.nodup_cons.mp (by simpa using hids)).1
    have htail : (ts.map Ticket.id).Nodup := (List.nodup_cons.mp (by simpa using hids)).2
    by_cases hcl : closedForB am s e a ids tk = true
    · have hmem : tk.id ∈ ids := by
        have := hcl
        unfold closedForB at this
        simp only [Bool.and_eq_true] at this
        exact List.mem_of_elem_eq_true this.2
      have hmono : ts.countP (closedForB am s e a ids)
          ≤ ts.countP (closedForB am s e a (ids.erase tk.id)) := by
        apply List.countP_mono_left
        intro x hx hpx
        unfold closedForB at hpx ⊢
        simp only [Bool.and_eq_true] at hpx ⊢
        refine ⟨hpx.1, ?_⟩
        have hxid : x.id ∈ ids := List.mem_of_elem_eq_true hpx.2
        have hxne : x.id ≠ tk.id := by
          intro hcontra
          exact hhead (hcontra ▸ List.mem_map_of_mem Ticket.id hx)
        exact List.elem_eq_true_of_mem (hnod.mem_erase_iff.mpr ⟨hxne, hxid⟩)
      have hih := ih (ids.erase tk.id) htail (hnod.erase tk.id)
      have hlen : (ids.erase tk.id).length = ids.length - 1 :=
        List.length_erase_of_mem hmem
      have hpos : 0 < ids.length := List.length_pos_of_mem hmem
      rw [List.countP_cons]
      simp only [hcl, if_true]
      omega
    · rw [List.countP_cons]
      simp only [hcl, if_false]
      have := ih ids htail hnod
      simp only [Bool.not_eq_true] at hcl
      simp [hcl]
      omega

/-! ## Claim C9: closures never exceed the touched-ticket count -/

/-- C9.  With pairwise-distinct ticket ids, every summary the engine emits
satisfies totalClosed at most ticketCount: pass 2 only credits a closure for
a ticket whose id is already in the touched set of pass 1, and distinct
tickets consume distinct ids of that duplicate-free set. -/
theorem C9_closed_le_ticketCount (tickets : List Ticket) (am : AgentMap) (s e : Int)
    (gm : List (Int × String)) (hids : (tickets.map Ticket.id).Nodup) :
    ∀ s2 ∈ calculateAllAgentActivity tickets am s e gm,
      s2.totalClosed ≤ s2.ticketCount := by
  intro s2 hmem
  obtain ⟨en, _, rfl⟩ := mem_calculate hmem
  show (agentDataOf am s e en.1 tickets).totalClosed
      ≤ (agentDataOf am s e en.1 tickets).ticketIds.length
  unfold agentDataOf
  rw [pass2_fold_totalClosed, pass2_fold_ticketIds, pass1_totalClosed]
  have hnod := pass1_ticketIds_nodup am s e en.1 tickets
  have := countP_closedForB_le am s e en.1 tickets
    (pass1 am s e en.1 tickets).ticketIds hids hnod
  omega

theorem C9_closed_le_ticketCount_witness : c4sum.totalClosed ≤ c4sum.ticketCount := by
  have hmem : c4sum ∈ calculateAllAgentActivity [c4ticket] [(1, "a")] 0 1000 [] := by
    rw [show calculateAllAgentActivity [c4ticket] [(1, "a")] 0 1000 [] = [c4sum] from rfl]
    exact List.mem_cons_self _ _
  exact C9_closed_le_ticketCount [c4ticket] [(1, "a")] 0 1000 [] (by decide) c4sum hmem

/-! ## Claim C3: lemmas about removing a conversation-free closed ticket -/

theorem applyConv_skip (am : AgentMap) (s e : Int) (a : Int) (tid : Int)
    (d : AgentData) (c : Conversation)
    (h : ¬(convQualifies am s e c = true ∧ c.user_id = a)) :
    applyConv am s e a tid d c = d := by
  unfold applyConv
  rw [if_neg]
  simp only [Bool.and_eq_true, beq_iff_eq]
  exact h

theorem pass1Ticket_skip (am : AgentMap) (s e : Int) (a : Int)
    (d : AgentData) (tk : Ticket)
    (h : ∀ c ∈ tk.conversations, ¬(convQualifies am s e c = true ∧ c.user_id = a)) :
    pass1Ticket am s e a d tk = d := by
  unfold pass1Ticket
  have hfold : ∀ cs, (∀ c ∈ cs, ¬(convQualifies am s e c = true ∧ c.user_id = a)) →
      ∀ d2, (cs : List Conversation).foldl (applyConv am s e a tk.id) d2 = d2 := by
    intro cs
    induction cs with
    | nil => intro _ d2; rfl
    | cons c cs2 ih =>
      intro hcs d2
      rw [List.foldl_cons, applyConv_skip am s e a tk.id d2 c (hcs c (List.mem_cons_self c cs2)),
        ih (fun c2 hc2 => hcs c2 (List.mem_cons_of_mem c hc2)) d2]
  rw [hfold tk.conversations h]
  rw [if_neg]
  simp only [List.any_eq_true, Bool.and_eq_true, beq_iff_eq, not_exists]
  intro c
  intro hcontra
  exact h c hcontra.1 ⟨hcontra.2.1, hcontra.2.2⟩

theorem pass1_middle_skip (am : AgentMap) (s e : Int) (a : Int)
    (l₁ l₂ : List Ticket) (tk : Ticket)
    (h : ∀ c ∈ tk.conversations, ¬(convQualifies am s e c = true ∧ c.user_id = a)) :
    pass1 am s e a (l₁ ++ tk :: l₂) = pass1 am s e a (l₁ ++ l₂) := by
  unfold pass1
  rw [List.foldl_append, List.foldl_append, List.foldl_cons,
    pass1Ticket_skip am s e a _ tk h]

theorem applyConv_ticketIds_sub (am : AgentMap) (s e : Int) (a : Int) (tid : Int)
    (d : AgentData) (c : Conversation) {x : Int}
    (hx : x ∈ (applyConv am s e a tid d c).ticketIds) :
    x ∈ d.ticketIds ∨ x = tid := by
  unfold applyConv at hx
  split at hx
  · simp only at hx
    unfold addToSet at hx
    split at hx
    · exact Or.inl hx
    · rcases List.mem_append.mp hx with h1 | h1
      · exact Or.inl h1
      · exact Or.inr (by simpa using h1)
  · exact Or.inl hx

theorem pass1Ticket_ticketIds_sub (am : AgentMap) (s e : Int) (a : Int)
    (d : AgentData) (tk : Ticket) {x : Int}
    (hx : x ∈ (pass1Ticket am s e a d tk).ticketIds) :
    x ∈ d.ticketIds ∨ x = tk.id := by
  unfold pass1Ticket at hx
  have hfold : ∀ cs d2, x ∈ ((cs : List Conversation).foldl (applyConv am s e a tk.id) d2).ticketIds →
      x ∈ (d2 : AgentData).ticketIds ∨ x = tk.id := by
    intro cs
    induction cs with
    | nil => intro d2 h2; exact Or.inl h2
    | cons c cs2 ih =>
      intro d2 h2
      rw [List.foldl_cons] at h2
      rcases ih _ h2 with h3 | h3
      · exact applyConv_ticketIds_sub am s e a tk.id d2 c h3
      · exact Or.inr h3
  split at hx
  · exact hfold tk.conversations d hx
  · exact hfold tk.conversations d hx

theorem pass1_ticketIds_sub (am : AgentMap) (s e : Int) (a : Int)
    (tickets : List Ticket) {x : Int}
    (hx : x ∈ (pass1 am s e a tickets).ticketIds) :
    x ∈ tickets.map Ticket.id := by
  unfold pass1 at hx
  have hfold : ∀ ts d, x ∈ ((ts : List Ticket).foldl (pass1Ticket am s e a) d).ticketIds →
      x ∈ (d : AgentData).ticketIds ∨ x ∈ ts.map Ticket.id := by
    intro ts
    induction ts with
    | nil => intro d h2; exact Or.inl h2
    | cons tk ts2 ih =>
      intro d h2
      rw [List.foldl_cons] at h2
      rcases ih _ h2 with h3 | h3
      · rcases pass1Ticket_ticketIds_sub am s e a d tk h3 with h4 | h4
        · exact Or.inl h4
        · exact Or.inr (by simp [h4])
      · exact Or.inr (List.mem_cons_of_mem _ h3)
  rcases hfold tickets emptyAgentData hx with h1 | h1
  · exact absurd h1 (by simp [emptyAgentData])
  · exact h1

theorem pass2Ticket_skip (am : AgentMap) (s e : Int) (a : Int) (ids : List Int)
    (d : AgentData) (tk : Ticket) (h : tk.id ∉ ids) :
    pass2Ticket am s e a ids d tk = d := by
  unfold pass2Ticket
  rw [if_neg]
  simp only [Bool.and_eq_true]
  intro hcontra
  exact h (List.mem_of_elem_eq_true hcontra.2)

theorem pass2_middle_skip (am : AgentMap) (s e : Int) (a : Int) (ids : List Int)
    (l₁ l₂ : List Ticket) (tk : Ticket) (h : tk.id ∉ ids) :
    ∀ d, (l₁ ++ tk :: l₂).foldl (pass2Ticket am s e a ids) d
      = (l₁ ++ l₂).foldl (pass2Ticket am s e a ids) d := by
  intro d
  rw [List.foldl_append, List.foldl_append, List.foldl_cons,
    pass2Ticket_skip am s e a ids _ tk h]

/-- Removing a closed ticket on which agent a has no qualifying conversation
(and whose id no other ticket shares) leaves the entire AgentData of a
unchanged. -/
theorem agentDataOf_middle (am : AgentMap) (s e : Int) (a : Int)
    (l₁ l₂ : List Ticket) (tk : Ticket)
    (hq : ∀ c ∈ tk.conversations, ¬(convQualifies am s e c = true ∧ c.user_id = a))
    (hnid : tk.id ∉ (l₁ ++ l₂).map Ticket.id) :
    agentDataOf am s e a (l₁ ++ tk :: l₂) = agentDataOf am s e a (l₁ ++ l₂) := by
  unfold agentDataOf
  rw [pass1_middle_skip am s e a l₁ l₂ tk hq]
  have hnotin : tk.id ∉ (pass1 am s e a (l₁ ++ l₂)).ticketIds := by
    intro hmem
    exact hnid (pass1_ticketIds_sub am s e a (l₁ ++ l₂) hmem)
  rw [pass2_middle_skip am s e a _ l₁ l₂ tk hnotin]

theorem find?_filter_swap {α : Type _} (p q : α → Bool) (l : List α) :
    (l.filter q).find? p = l.find? (fun x => p x && q x) := by
  induction l with
  | nil => rfl
  | cons a t ih =>
    by_cases hq : q a = true
    · by_cases hp : p a = true
      · rw [List.filter_cons, if_pos hq, List.find?_cons_of_pos _ hp,
          List.find?_cons_of_pos _ (by simp [hp, hq])]
      · rw [List.filter_cons, if_pos hq, List.find?_cons_of_neg _ (by simp [hp]),
          List.find?_cons_of_neg _ (by simp [hp]), ih]
    · rw [List.filter_cons, if_neg hq, List.find?_cons_of_neg _ (by simp [hq]), ih]

theorem find?_perm_of_subsingleton {α : Type _} {l l2 : List α} (hperm : l.Perm l2)
    {p : α → Bool} (hcount : l.countP p ≤ 1) : l.find? p = l2.find? p := by
  match h1 : l.find? p with
  | none =>
    have hnone := List.find?_eq_none.mp h1
    exact (List.find?_eq_none.mpr (fun x hx => hnone x (hperm.mem_iff.mpr hx))).symm
  | some a =>
    have hpa := List.find?_some h1
    have hmema := List.mem_of_find?_eq_some h1
    match h2 : l2.find? p with
    | none =>
      exact absurd hpa (List.find?_eq_none.mp h2 a (hperm.mem_iff.mp hmema))
    | some b =>
      have hpb := List.find?_some h2
      have hmemb : b ∈ l := hperm.mem_iff.mpr (List.mem_of_find?_eq_some h2)
      congr 1
      by_contra hne
      obtain ⟨u, v, hl⟩ := List.append_of_mem hmema
      have hb2 : b ∈ u ∨ b ∈ v := by
        rw [hl] at hmemb
        rcases List.mem_append.mp hmemb with h3 | h3
        · exact Or.inl h3
        · rcases List.mem_cons.mp h3 with h4 | h4
          · exact absurd h4.symm hne
          · exact Or.inr h4
      have hge : 2 ≤ l.countP p := by
        rw [hl, List.countP_append, List.countP_cons]
        have hone : 0 < u.countP p ∨ 0 < v.countP p := by
          rcases hb2 with h3 | h3
          · exact Or.inl (List.countP_pos_iff.mpr ⟨b, h3, hpb⟩)
          · exact Or.inr (List.countP_pos_iff.mpr ⟨b, h3, hpb⟩)
        simp only [hpa, if_true]
        omega
      omega

/-- find? over the stable sort agrees with find? over the unsorted list when
at most one element satisfies the predicate. -/
theorem sortBy_find? {α : Type _} (le : α → α → Bool) (l : List α) (p : α → Bool)
    (hcount : l.countP p ≤ 1) : (sortBy le l).find? p = l.find? p :=
  find?_perm_of_subsingleton (sortBy_perm le l)
    (by rw [(sortBy_perm le l).countP_eq]; exact hcount)

theorem countP_agentId_le_one (am : AgentMap) (f : Int × String → AgentActivitySummary)
    (hid : ∀ en, (f en).agentId = en.1) (r : Int)
    (hkeys : (am.map Prod.fst).Nodup) (q : AgentActivitySummary → Bool) :
    ((am.map f).filter q).countP (fun s2 => s2.agentId == r) ≤ 1 := by
  have h1 : ((am.map f).filter q).countP (fun s2 => s2.agentId == r)
      ≤ (am.map f).countP (fun s2 => s2.agentId == r) := by
    rw [List.countP_filter]
    exact List.countP_mono_left (fun x _ h => by
      simp only [Bool.and_eq_true] at h
      exact h.1)
  have h2 : (am.map f).countP (fun s2 => s2.agentId == r)
      ≤ am.countP (fun en => en.1 == r) := by
    rw [List.countP_map]
    apply le_of_eq
    apply List.countP_congr
    intro en _
    simp [Function.comp, hid en]
  have h3 : ∀ m : AgentMap, (m.map Prod.fst).Nodup → m.countP (fun en => en.1 == r) ≤ 1 := by
    intro m
    induction m with
    | nil => intro _; simp
    | cons en t ih =>
      intro hnodk
      have hn1 : en.1 ∉ t.map Prod.fst := (List.nodup_cons.mp (by simpa using hnodk)).1
      have hn2 : (t.map Prod.fst).Nodup := (List.nodup_cons.mp (by simpa using hnodk)).2
      rw [List.countP_cons]
      by_cases hk : en.1 = r
      · have hzero : t.countP (fun en2 => en2.1 == r) = 0 := by
          rw [List.countP_eq_zero]
          intro en2 hen2
          simp only [beq_iff_eq]
          intro hcontra
          exact hn1 (by
            rw [hk, ← hcontra]
            exact List.mem_map_of_mem Prod.fst hen2)
        simp [hzero, hk]
      · have hle := ih hn2
        have hfalse : (en.1 == r) = false := by
          simp [beq_iff_eq, hk]
        simpa [hfalse] using hle
  exact le_trans h1 (le_trans h2 (h3 am hkeys))

/-- The closure-related projection of a summary named by the claim: the
total closed count, the per-day closed counts, and the per-group closed
counts. -/
def summaryClosedData (s2 : AgentActivitySummary) : Nat × List (Int × Nat) × List (String × Nat) :=
  (s2.totalClosed,
   s2.dailyBreakdown.map (fun d2 => (d2.date, d2.totalClosed)),
   s2.groupStats.map (fun g => (g.groupName, g.closed)))

/-- Neither the closure projection nor the output filter reads the
cross-agent denominator of the activity ratio. -/
theorem buildSummary_closedData_const (gm : List (Int × String)) (a : Int)
    (nm : String) (d : AgentData) (tA tB : Nat) :
    summaryClosedData (buildSummary gm a nm d tA) = summaryClosedData (buildSummary gm a nm d tB)
    ∧ keepSummary (buildSummary gm a nm d tA) = keepSummary (buildSummary gm a nm d tB) :=
  ⟨rfl, rfl⟩

/-- Comparing the record found for agent r across two per-agent builders
that agree (under the closure projection and the output filter) on the key
r: the filtered builds of the same agent map deliver projection-equal
results. -/
theorem find?_map_filter_proj (r : Int) (f₁ f₂ : Int × String → AgentActivitySummary)
    (hid₁ : ∀ en, (f₁ en).agentId = en.1) (hid₂ : ∀ en, (f₂ en).agentId = en.1)
    (hagree : ∀ nm, summaryClosedData (f₁ (r, nm)) = summaryClosedData (f₂ (r, nm))
      ∧ keepSummary (f₁ (r, nm)) = keepSummary (f₂ (r, nm))) :
    ∀ am : AgentMap,
      (((am.map f₁).filter keepSummary).find? (fun s2 => s2.agentId == r)).map summaryClosedData
      = (((am.map f₂).filter keepSummary).find? (fun s2 => s2.agentId == r)).map
          summaryClosedData := by
  intro am
  rw [find?_filter_swap, find?_filter_swap]
  induction am with
  | nil => rfl
  | cons en t ih =>
    simp only [List.map_cons]
    by_cases hk : en.1 = r
    · have hen : en = (r, en.2) := by
        cases en
        simp_all
      have hprojeq := (hagree en.2).1
      have hkeepeq := (hagree en.2).2
      by_cases hkeep : keepSummary (f₁ (r, en.2)) = true
      · rw [List.find?_cons_of_pos _ (by
            rw [hen]
            simp [hid₁ (r, en.2), hkeep]),
          List.find?_cons_of_pos _ (by
            rw [hen]
            simp [hid₂ (r, en.2), ← hkeepeq, hkeep])]
        rw [hen]
        show some (summaryClosedData (f₁ (r, en.2))) = some (summaryClosedData (f₂ (r, en.2)))
        exact congrArg some hprojeq
      · rw [List.find?_cons_of_neg _ (by
            rw [hen]
            simp [hkeep]),
          List.find?_cons_of_neg _ (by
            rw [hen]
            simp [← hkeepeq, hkeep]), ih]
    · rw [List.find?_cons_of_neg _ (by simp [hid₁ en, hk]),
        List.find?_cons_of_neg _ (by simp [hid₂ en, hk]), ih]

/-- C3 amended.  Over inputs with pairwise-distinct ticket ids: a ticket tk
that is Resolved/Closed with closure timestamp in the window but on which
the responder has no qualifying conversation contributes nothing to the
closure statistics of that responder — the summary found for the responder
in the output (when any) has identical totalClosed, identical per-day
closed counts and identical per-group closed counts whether or not tk is in
the input.  Distinctness is needed: with a duplicate id the pass-2 guard
ad.ticketIds.has(ticket.id) can be satisfied by a different ticket (see the
counterexample). -/
theorem C3_closure_guard (am : AgentMap) (gm : List (Int × String)) (s e : Int)
    (l₁ l₂ : List Ticket) (tk : Ticket)
    (hkeys : (am.map Prod.fst).Nodup)
    (hids : ((l₁ ++ tk :: l₂).map Ticket.id).Nodup)
    (_hclosed : ticketClosedInWindow s e tk = true)
    (hnoq : ∀ c ∈ tk.conversations,
      ¬(convQualifies am s e c = true ∧ c.user_id = tk.responder_id)) :
    ((calculateAllAgentActivity (l₁ ++ tk :: l₂) am s e gm).find?
        (fun s2 => s2.agentId == tk.responder_id)).map summaryClosedData
      = ((calculateAllAgentActivity (l₁ ++ l₂) am s e gm).find?
        (fun s2 => s2.agentId == tk.responder_id)).map summaryClosedData := by
  have hnid : tk.id ∉ (l₁ ++ l₂).map Ticket.id := by
    have h1 : ((l₁ ++ tk :: l₂).map Ticket.id)
        = l₁.map Ticket.id ++ tk.id :: l₂.map Ticket.id := by simp
    rw [h1] at hids
    have h2 := (List.nodup_cons.mp (List.nodup_middle.mp hids)).1
    simpa using h2
  have hdata := agentDataOf_middle am s e tk.responder_id l₁ l₂ tk hnoq hnid
  simp only [calculateAllAgentActivity]
  rw [sortBy_find? _ _ _
      (countP_agentId_le_one am _ (fun en => rfl) tk.responder_id hkeys keepSummary),
    sortBy_find? _ _ _
      (countP_agentId_le_one am _ (fun en => rfl) tk.responder_id hkeys keepSummary)]
  exact find?_map_filter_proj tk.responder_id _ _ (fun en => rfl) (fun en => rfl)
    (fun nm => by
      rw [hdata]
      exact buildSummary_closedData_const gm tk.responder_id nm _ _ _) am

/-- The auto-closed ticket of the witness scenario: Closed, responder agent
1, no conversations at all. -/
def c3tk : Ticket := ⟨200, 1, 3, 5, 600000, none, []⟩

/-- A second, open ticket the responder actually worked, with a distinct
id. -/
def c3other : Ticket := ⟨201, 1, 3, 2, 700000, none, [⟨1, some "hi there", 150000, false⟩]⟩

theorem C3_closure_guard_witness :
    ((calculateAllAgentActivity ([] ++ c3tk :: [c3other]) [(1, "agent b")] 0 1000000 []).find?
        (fun s2 => s2.agentId == c3tk.responder_id)).map summaryClosedData
      = ((calculateAllAgentActivity ([] ++ [c3other]) [(1, "agent b")] 0 1000000 []).find?
        (fun s2 => s2.agentId == c3tk.responder_id)).map summaryClosedData :=
  C3_closure_guard [(1, "agent b")] [] 0 1000000 [] [c3other] c3tk
    (by decide) (by decide) (by decide)
    (fun c hc => absurd hc (by simp [c3tk]))

/-- Two tickets sharing id 1: the closed one has no conversations, the open
one carries the qualifying conversation that puts id 1 into the touched set
of agent 7. -/
def c3dupA : Ticket := ⟨1, 7, 3, 5, 500000, none, []⟩

/-- The open ticket with the same id as c3dupA. -/
def c3dupB : Ticket := ⟨1, 7, 3, 2, 400000, none, [⟨7, some "hello", 150000, false⟩]⟩

/-- C3 counterexample.  Without the distinct-ids hypothesis the claim is
false: c3dupA is closed in the window and its responder (agent 7) has no
conversation on it at all, yet the engine credits the closure — agent 7 has
totalClosed = 1 with c3dupA present and totalClosed = 0 without it, because
the pass-2 guard tests membership of the ticket id in the touched set and
ticket c3dupB put the shared id 1 there. -/
theorem C3_counterexample :
    ticketClosedInWindow 0 1000000 c3dupA = true ∧
    c3dupA.conversations = [] ∧
    ((calculateAllAgentActivity [c3dupA, c3dupB] [(7, "b")] 0 1000000 []).find?
        (fun s2 => s2.agentId == c3dupA.responder_id)).map (fun s2 => s2.totalClosed)
      = some 1 ∧
    ((calculateAllAgentActivity [c3dupB] [(7, "b")] 0 1000000 []).find?
        (fun s2 => s2.agentId == c3dupA.responder_id)).map (fun s2 => s2.totalClosed)
      = some 0 := by
  refine ⟨by decide, by decide, by decide, by decide⟩

end FDReport
